import Mathlib

/-!
Verification development for the koffi-curl repository.

The definitions below are a shallow embedding of the TypeScript source:

* `Callbacks`   — src/src/bindings/callbacks.ts and src/src/bindings/memory.ts
                  (callback-bridge trampolines, the process-wide reference
                  table and the registered-trampoline table with their two
                  counters `nextCallbackId` / `nextRefId`).
* `CurlInfo`    — `Curl.getinfo` from src/src/core/curl.ts.
* `Coord`       — the `AsyncCurl` coordinator from src/src/core/async_curl.ts
                  (registry, drive step, heuristic completion scan, remove,
                  close with its deferred cleanup task, timer handling).
* `MsgCoord`    — the message-decoding coordinator variants
                  (`handleCompletedRequest` from the polling variant and
                  `checkCompletedRequests` from the timer-only variant).

JavaScript exceptions are modelled with `Except`; a `try { } catch { }`
block is a recovery on the `Except` value.  JavaScript numbers that the
source only ever compares (the `double` info values) are modelled as `Rat`.
Each coordinator operation is atomic, mirroring Node's single-threaded
execution; `setImmediate` work is modelled as explicitly scheduled deferred
tasks that run as separate atomic steps.
-/

namespace Callbacks

/-- Outcome of invoking a managed closure: it either returns a number or
throws.  `Buf` stands for the byte buffer handed to write/header
callbacks. -/
abbrev Buf := List Nat

/-- A managed write/header closure: may throw (`Except.error`) on any
input. -/
abbrev BufClosure := Buf → Except Unit Int

/-- JS `try { body } catch { return sentinel }`: recover an exceptional
computation with a sentinel value. -/
def tryCatch (body : Except Unit Int) (sentinel : Int) : Except Unit Int :=
  match body with
  | .ok n => .ok n
  | .error _ => .ok sentinel

/-- The body of the write/header trampoline built by `createBufferCallback`
(src/src/bindings/callbacks.ts lines 21-32), before the `catch`:
compute `totalSize = size * nmemb`, return 0 when it is 0, otherwise look
the closure up in the reference table (`getReference`; a missing entry
makes the subsequent call throw) and invoke it. -/
def bufferTrampolineBody (ref : Option BufClosure) (size nmemb : Nat)
    (data : Buf) : Except Unit Int :=
  if size * nmemb = 0 then .ok 0
  else
    match ref with
    | none => .error ()
    | some f => f data

/-- The full write/header trampoline: its body wrapped in
`try { ... } catch { return 0 }`.  The returned `Except` is what crosses
the native boundary: an `.error` would be an exception propagating into
native code. -/
def bufferTrampoline (ref : Option BufClosure) (size nmemb : Nat)
    (data : Buf) : Except Unit Int :=
  tryCatch (bufferTrampolineBody ref size nmemb data) 0

/-- A managed timer closure (takes the timeout in ms); may throw. -/
abbrev TimerClosure := Int → Except Unit Unit

/-- Result of one timer-trampoline invocation
(src/src/bindings/callbacks.ts lines 65-77): the value returned to native
code, plus the list of deferred managed invocations queued with
`setImmediate` (each recorded as the timeout argument it will be run
with).  The closure itself is never run inside the trampoline; only the
scheduling happens there, so an exception the closure throws later cannot
cross the native boundary. -/
structure TimerTrampolineOut where
  ret : Except Unit Int
  deferredCalls : List Int
  deriving Repr

/-- The timer trampoline: `try { getReference; setImmediate(...); return 0 }
catch { return -1 }`.  Looking up the reference and scheduling never throw
(calling an `undefined` reference would throw only inside the deferred
task), so the body always returns 0 and queues one deferred call. -/
def timerTrampoline (timeoutMs : Int) : TimerTrampolineOut :=
  { ret := .ok 0, deferredCalls := [timeoutMs] }

/-- State of the two module-level tables of the callback bridge:
`REGISTERED_CALLBACKS` with its counter `nextCallbackId`
(src/src/bindings/callbacks.ts lines 14-15) and the reference table
`references` with its counter `nextRefId`
(src/src/bindings/memory.ts lines 11-12).  The maps are represented by
their key sets (lists of ids). -/
structure BridgeState where
  nextCallbackId : Nat
  nextRefId : Nat
  registered : List Nat
  references : List Nat
  deriving Repr, DecidableEq

/-- Module initialisation: both counters start at 1, both tables empty. -/
def BridgeState.init : BridgeState :=
  { nextCallbackId := 1, nextRefId := 1, registered := [], references := [] }

/-- Common effect of every `create*` function in callbacks.ts
(`createBufferCallback`, `createProgressCallback`, `createTimerCallback`,
`createSocketCallback`): one `saveReference` call (store under `nextRefId`,
increment it) and one `nextCallbackId++` with a
`REGISTERED_CALLBACKS.set(callbackId, ...)`.  Returns the new state, the
callback id handed to the caller, and the reference id the closure was
stored under. -/
def createCallbackEntry (s : BridgeState) : BridgeState × Nat × Nat :=
  let refId := s.nextRefId
  let cbId := s.nextCallbackId
  ({ nextCallbackId := cbId + 1
     nextRefId := refId + 1
     registered := cbId :: s.registered
     references := refId :: s.references }, cbId, refId)

/-- `releaseCallback` (src/src/bindings/callbacks.ts lines 109-116): if
the id is in `REGISTERED_CALLBACKS`, unregister the native trampoline and
delete the entry; then always `releaseReference(id)`, which deletes from
the reference table (a no-op for an absent key). -/
def releaseCallback (s : BridgeState) (id : Nat) : BridgeState :=
  { s with
    registered := s.registered.filter (fun k => k ≠ id)
    references := s.references.filter (fun k => k ≠ id) }

/-- The externally triggerable operations on the bridge module state:
nothing else in src/src touches `saveReference` or the counters. -/
inductive BridgeOp where
  | create
  | release (id : Nat)
  deriving Repr, DecidableEq

/-- Run one bridge operation. -/
def bridgeStep (s : BridgeState) : BridgeOp → BridgeState
  | .create => (createCallbackEntry s).1
  | .release id => releaseCallback s id

/-- Run a sequence of bridge operations from the module-initial state. -/
def runBridge (ops : List BridgeOp) : BridgeState :=
  ops.foldl bridgeStep BridgeState.init

/-- The invariant tying the two counters and tables together. -/
def BridgeInv (s : BridgeState) : Prop :=
  s.nextCallbackId = s.nextRefId ∧
  (∀ k ∈ s.registered, k < s.nextCallbackId) ∧
  (∀ k ∈ s.references, k < s.nextRefId)

instance : DecidablePred BridgeInv := fun s => by
  unfold BridgeInv; infer_instance

theorem bridgeInv_init : BridgeInv BridgeState.init := by
  refine ⟨rfl, ?_, ?_⟩ <;> intro k hk <;> simp [BridgeState.init] at hk

theorem bridgeInv_step (s : BridgeState) (op : BridgeOp)
    (h : BridgeInv s) : BridgeInv (bridgeStep s op) := by
  obtain ⟨h1, h2, h3⟩ := h
  cases op with
  | create =>
      refine ⟨by simp [bridgeStep, createCallbackEntry, h1], ?_, ?_⟩
      · intro k hk
        simp only [bridgeStep, createCallbackEntry, List.mem_cons] at hk ⊢
        rcases hk with rfl | hk
        · omega
        · exact Nat.lt_succ_of_lt (h2 k hk)
      · intro k hk
        simp only [bridgeStep, createCallbackEntry, List.mem_cons] at hk ⊢
        rcases hk with rfl | hk
        · omega
        · exact Nat.lt_succ_of_lt (h3 k hk)
  | release id =>
      refine ⟨h1, ?_, ?_⟩
      · intro k hk
        exact h2 k (List.mem_of_mem_filter hk)
      · intro k hk
        exact h3 k (List.mem_of_mem_filter hk)

theorem bridgeInv_run (ops : List BridgeOp) : BridgeInv (runBridge ops) := by
  suffices h : ∀ s, BridgeInv s → BridgeInv (ops.foldl bridgeStep s) from
    h BridgeState.init bridgeInv_init
  induction ops with
  | nil => intro s hs; exact hs
  | cons op rest ih =>
      intro s hs
      exact ih (bridgeStep s op) (bridgeInv_step s op hs)

end Callbacks

namespace CurlInfo

/-- A value returned from `Curl.getinfo` to JavaScript callers. -/
inductive JsValue where
  | vstr (s : String)
  | vint (n : Int)
  | vdbl (q : Rat)
  | vptr (addr : Nat)
  | vnull
  deriving Repr, DecidableEq

/-- The native/FFI side of one `getinfo` call: for each typed
`curl_easy_getinfo_*` entry point, either the call throws in the FFI
layer (`.error`) or returns a native result code, together with the value
the native side wrote into the out-buffer.  `stringDecode` is the
`koffi.decode` of the returned C string (it may itself throw, or yield a
null/undefined string, which the source maps to `''` via `result || ''`). -/
structure NativeInfoEnv where
  stringCall : Except Unit Nat
  stringPtr : Nat
  stringDecode : Except Unit (Option String)
  longCall : Except Unit Nat
  longVal : Int
  doubleCall : Except Unit Nat
  doubleVal : Rat
  pointerCall : Except Unit Nat
  pointerVal : Nat

/-- `readString` from `createStringPointerBuffer`
(src/src/bindings/memory.ts lines 116-142): a null pointer or an address
below 0x1000 yields `''`; a decode failure or null decode result yields
`''`; otherwise the decoded string.  All exceptions are caught inside. -/
def readString (ptrValue : Nat) (decodeRes : Except Unit (Option String)) :
    String :=
  if ptrValue = 0 then ""
  else if ptrValue < 0x1000 then ""
  else
    match decodeRes with
    | .error _ => ""
    | .ok none => ""
    | .ok (some s) => s

/-- The type tag of an info key: `info & 0xf00000`
(src/src/core/curl.ts line 256). -/
def infoTypeOf (info : Nat) : Nat := info &&& 0xf00000

/-- The `switch (infoType)` body of `getinfo` inside the `try`
(src/src/core/curl.ts lines 259-311).  An `.error` is an exception
escaping the switch into the outer `catch`. -/
def getinfoBody (env : NativeInfoEnv) (info : Nat) : Except Unit JsValue :=
  if infoTypeOf info = 0x100000 then
    match env.stringCall with
    | .error e => .error e
    | .ok r =>
        if r ≠ 0 then .ok (.vstr "")
        else .ok (.vstr (readString env.stringPtr env.stringDecode))
  else if infoTypeOf info = 0x200000 then
    match env.longCall with
    | .error e => .error e
    | .ok r => if r ≠ 0 then .ok (.vint 0) else .ok (.vint env.longVal)
  else if infoTypeOf info = 0x300000 then
    match env.doubleCall with
    | .error e => .error e
    | .ok r => if r ≠ 0 then .ok (.vdbl 0) else .ok (.vdbl env.doubleVal)
  else if infoTypeOf info = 0x400000 then
    match env.pointerCall with
    | .error e => .error e
    | .ok r =>
        if r ≠ 0 then .ok .vnull
        else if env.pointerVal = 0 then .ok .vnull
        else .ok (.vptr env.pointerVal)
  else .ok .vnull

/-- The `catch` branch of `getinfo` (src/src/core/curl.ts lines 312-323):
a type-appropriate default value chosen by the same type tag. -/
def getinfoDefault (infoType : Nat) : JsValue :=
  if infoType = 0x100000 then .vstr ""
  else if infoType = 0x200000 then .vint 0
  else if infoType = 0x300000 then .vdbl 0
  else if infoType = 0x400000 then .vnull
  else .vnull

/-- `Curl.getinfo` (src/src/core/curl.ts lines 252-324).  A closed handle
throws before the `try`; everything else is the `try`/`catch` around the
typed switch.  The outer `Except String` is what the JavaScript caller
sees: `.error` is a thrown exception. -/
def getinfo (env : NativeInfoEnv) (handleOpen : Bool) (info : Nat) :
    Except String JsValue :=
  if !handleOpen then .error "CURL 句柄已关闭"
  else
    .ok (match getinfoBody env info with
         | .ok v => v
         | .error _ => getinfoDefault (infoTypeOf info))

/-- A native getinfo entry point "failed": the FFI call threw or returned
a non-zero result code. -/
def callFailed : Except Unit Nat → Prop
  | .error _ => True
  | .ok r => r ≠ 0

instance : DecidablePred callFailed := fun c => by
  cases c <;> unfold callFailed <;> infer_instance

end CurlInfo

namespace Coord

/-- A decoded `CURLMsg` completion record: message kind tag, embedded
native easy-session pointer (its integer address), and native result
code. -/
structure CurlMsg where
  msg : Nat
  easyHandle : Nat
  result : Nat
  deriving Repr, DecidableEq

/-- `const CURLMSG_DONE = 1` (src/src/core/async_curl.ts line 8). -/
def CURLMSG_DONE : Nat := 1

/-- What `curl.getinfo` probing reports for one registered handle during
`handleMessageSafely` / `fallbackCompletionCheck`: `infoThrows` models
`getinfo` throwing (a closed easy handle); otherwise the probed
RESPONSE_CODE / TOTAL_TIME / PRIMARY_IP values; `detailThrows` models the
inner PRIMARY_IP/HTTP_CONNECTCODE probe throwing; `removeRes` is the
`curl_multi_remove_handle` result code used by the fallback path. -/
structure HandleProbe where
  infoThrows : Bool
  responseCode : Int
  totalTime : Rat
  detailThrows : Bool
  primaryIp : String
  removeRes : Nat

/-- Observable events of a coordinator execution, in program order. -/
inductive Ev where
  | nativeRemove (id : Nat)
  | removeRecord (id : Nat)
  | resolveOk (id : Nat)
  | rejectErr (id : Nat) (msg : String)
  | driveStep
  | nativePerform
  | nativeAdd (id : Nat)
  | cancelTimer
  | releaseCb (id : Nat)
  | scheduleCleanup
  | multiCleanup
  deriving Repr, DecidableEq

/-- The `AsyncCurl` instance state (src/src/core/async_curl.ts lines
22-28).  `registry` is the key list of `curlIdToRequest` in insertion
order; `timerSet` is whether `this.timer` holds a pending timeout;
`tasks` counts cleanup tasks queued with `setImmediate` in `close` but
not yet run. -/
structure CoordState where
  multiHandle : Bool
  registry : List Nat
  socketCallbackId : Option Nat
  timerCallbackId : Option Nat
  timerSet : Bool
  lastRunningCount : Int
  tasks : Nat
  deriving Repr, DecidableEq

def closedMsg : String := "AsyncCurl 已关闭"
def cancelMsg : String := "请求被取消"
def infoFailMsg : String := "获取传输信息失败"
def protoFailMsg (ip : String) : String := "连接成功但协议错误，IP: " ++ ip
def connFailMsg : String := "连接失败"
def timeFailMsg : String := "请求失败，耗时"
def unknownFailMsg : String := "请求失败，未知原因"
def fbFailMsg : String := "传输失败，无法获取状态信息"
def fbTimeoutMsg : String := "请求超时或失败，耗时"
def addFailMsg (s : String) : String := "添加句柄失败: " ++ s

/-- The completion heuristic of `handleMessageSafely`
(src/src/core/async_curl.ts lines 199-205): a response code of at least
100, or a total time above 0.01 seconds. -/
def msgSafeCompleted (p : HandleProbe) : Bool :=
  (100 ≤ p.responseCode) || ((1 / 100 : Rat) < p.totalTime)

/-- The events `handleMessageSafely` emits for the one entry it decides
to complete (src/src/core/async_curl.ts lines 207-264): native detach,
registry delete, then exactly one continuation chosen by the heuristics
(resolve when a response code is present; otherwise one of the reject
variants). -/
def msgSafeEvents (p : HandleProbe) (id : Nat) : List Ev :=
  if p.infoThrows then
    [.nativeRemove id, .removeRecord id, .rejectErr id infoFailMsg]
  else
    [.nativeRemove id, .removeRecord id,
     if 100 ≤ p.responseCode then .resolveOk id
     else if (1 / 100 : Rat) < p.totalTime then
       (if p.detailThrows then .rejectErr id timeFailMsg
        else if p.primaryIp.length ≠ 0 then .rejectErr id (protoFailMsg p.primaryIp)
        else .rejectErr id connFailMsg)
     else .rejectErr id unknownFailMsg]

/-- The registry iteration of `handleMessageSafely`: scan the entries in
insertion order; the first one whose probe throws or meets the completion
heuristic is processed (`return` after one), the rest are skipped. -/
def msgSafeScan (probe : Nat → HandleProbe) : List Nat → Option (Nat × List Ev)
  | [] => none
  | id :: rest =>
      let p := probe id
      if p.infoThrows then some (id, msgSafeEvents p id)
      else if msgSafeCompleted p then some (id, msgSafeEvents p id)
      else msgSafeScan probe rest

/-- `handleMessageSafely(msgPtr)` (src/src/core/async_curl.ts lines
184-269).  Note that `msgPtr` — the drained completion message — is
never decoded or consulted: the decision is made entirely from the
per-handle `getinfo` heuristics. -/
def handleMessageSafely (probe : Nat → HandleProbe) (msgPtr : CurlMsg)
    (st : CoordState) : CoordState × List Ev :=
  match msgSafeScan probe st.registry with
  | none => (st, [])
  | some (id, evs) => ({ st with registry := st.registry.erase id }, evs)

/-- The registry iteration of `fallbackCompletionCheck`
(src/src/core/async_curl.ts lines 274-316): looser heuristics, and the
registry delete plus continuation only happen when the native detach
returned 0.  The `Bool` says whether the entry was deleted. -/
def fallbackScan (probe : Nat → HandleProbe) :
    List Nat → Option (Nat × Bool × List Ev)
  | [] => none
  | id :: rest =>
      let p := probe id
      if p.infoThrows then
        if p.removeRes = 0 then
          some (id, true, [.nativeRemove id, .removeRecord id, .rejectErr id fbFailMsg])
        else some (id, false, [.nativeRemove id])
      else if ((0 : Int) < p.responseCode) || ((1 / 1000 : Rat) < p.totalTime) then
        if p.removeRes = 0 then
          some (id, true,
            [.nativeRemove id, .removeRecord id,
             if (0 : Int) < p.responseCode then .resolveOk id
             else .rejectErr id fbTimeoutMsg])
        else some (id, false, [.nativeRemove id])
      else fallbackScan probe rest

/-- `fallbackCompletionCheck` (src/src/core/async_curl.ts lines 274-316). -/
def fallbackCompletionCheck (probe : Nat → HandleProbe) (st : CoordState) :
    CoordState × List Ev :=
  match fallbackScan probe st.registry with
  | none => (st, [])
  | some (id, true, evs) => ({ st with registry := st.registry.erase id }, evs)
  | some (_, false, evs) => (st, evs)

/-- `removeHandle(curl)` (src/src/core/async_curl.ts lines 361-379): if a
pending record exists for the identity, detach natively (when the engine
reference is still set), delete the record, then reject with the
cancellation error; otherwise do nothing. -/
def removeHandle (st : CoordState) (id : Nat) : CoordState × List Ev :=
  if st.registry.contains id then
    ({ st with registry := st.registry.erase id },
     (if st.multiHandle then [Ev.nativeRemove id] else []) ++
       [Ev.removeRecord id, Ev.rejectErr id cancelMsg])
  else (st, [])

/-- `close()` (src/src/core/async_curl.ts lines 411-494), up to its
return: early-return when the engine reference is already null; cancel
the pending timeout; release the socket and timer callback-bridge
entries; for every pending record, detach natively and reject with the
closed error; clear the registry; finally queue the native cleanup as a
`setImmediate` task.  The engine reference itself is nulled only inside
that deferred task. -/
def close (st : CoordState) : CoordState × List Ev :=
  if !st.multiHandle then (st, [])
  else
    let evTimer := if st.timerSet then [Ev.cancelTimer] else []
    let evSock := match st.socketCallbackId with
      | some i => [Ev.releaseCb i]
      | none => []
    let evTim := match st.timerCallbackId with
      | some i => [Ev.releaseCb i]
      | none => []
    let evCancel := st.registry.flatMap
      (fun id => [Ev.nativeRemove id, Ev.rejectErr id closedMsg])
    let evClear := st.registry.map Ev.removeRecord
    ({ multiHandle := true, registry := [], socketCallbackId := none,
       timerCallbackId := none, timerSet := false,
       lastRunningCount := st.lastRunningCount, tasks := st.tasks + 1 },
     evTimer ++ evSock ++ evTim ++ evCancel ++ evClear ++ [Ev.scheduleCleanup])

/-- One queued cleanup task from `close` (src/src/core/async_curl.ts
lines 472-485): when it runs it always calls `curl_multi_cleanup` on the
current engine reference — even if another task already nulled it — and
then nulls the reference. -/
def runCleanupTask (st : CoordState) : CoordState × List Ev :=
  if st.tasks = 0 then (st, [])
  else ({ st with tasks := st.tasks - 1, multiHandle := false }, [Ev.multiCleanup])

/-- The native-engine responses consumed by one drive step: the
`curl_multi_socket_action` result and running count, the
`curl_multi_perform` running count, the `curl_multi_info_read` stream
(`none` = no more messages), and the per-handle probe results. -/
structure DriveEnv where
  probe : Nat → HandleProbe
  actionRes : Nat
  actionRunning : Int
  performRunning : Int
  msgs : List (Option CurlMsg)

/-- The message loop of `readCompletedTransfers`
(src/src/core/async_curl.ts lines 155-175): at most 10 messages are
processed; a null read breaks out; each message goes to
`handleMessageSafely`. -/
def readCompletedGo (probe : Nat → HandleProbe) :
    Nat → List (Option CurlMsg) → CoordState → CoordState × List Ev
  | 0, _, st => (st, [])
  | _ + 1, [], st => (st, [])
  | _ + 1, none :: _, st => (st, [])
  | fuel + 1, some m :: rest, st =>
      let r1 := handleMessageSafely probe m st
      let r2 := readCompletedGo probe fuel rest r1.1
      (r2.1, r1.2 ++ r2.2)

/-- `readCompletedTransfers` (src/src/core/async_curl.ts lines 148-179). -/
def readCompletedTransfers (env : DriveEnv) (st : CoordState) :
    CoordState × List Ev :=
  if !st.multiHandle then (st, [])
  else readCompletedGo env.probe 10 env.msgs st

/-- `checkCompletedRequests` (src/src/core/async_curl.ts lines 123-143):
call `curl_multi_perform`, and only when the running count dropped below
the last observed one, drain messages; then store the new count. -/
def checkCompletedRequests (env : DriveEnv) (st : CoordState) :
    CoordState × List Ev :=
  if !st.multiHandle then (st, [])
  else
    let currentRunning := env.performRunning
    let completedCount := st.lastRunningCount - currentRunning
    let r :=
      if 0 < completedCount then readCompletedTransfers env st else (st, [])
    ({ r.1 with lastRunningCount := currentRunning }, Ev.nativePerform :: r.2)

/-- `performSocketAction(sockfd, evBitmask)` (src/src/core/async_curl.ts
lines 72-96): the non-blocking drive call; when the new running count is
lower than the last observed one, trigger `checkCompletedRequests`; then
store the new count. -/
def performSocketAction (env : DriveEnv) (st : CoordState)
    (sockfd evBitmask : Int) : CoordState × List Ev :=
  if !st.multiHandle then (st, [])
  else
    let runningHandles := env.actionRunning
    let r :=
      if runningHandles < st.lastRunningCount then checkCompletedRequests env st
      else (st, [])
    ({ r.1 with lastRunningCount := runningHandles }, Ev.driveStep :: r.2)

/-- How an `addHandle` call concluded from the caller's point of view. -/
inductive AddOutcome where
  | threwClosed
  | rejectedNow (msg : String)
  | pending
  deriving Repr, DecidableEq

structure AddHandleRes where
  state : CoordState
  outcome : AddOutcome
  events : List Ev

/-- `addHandle(curl)` (src/src/core/async_curl.ts lines 321-356): throw
the closed error when the engine reference is null; attach natively and,
on a non-zero code, reject immediately with the attach error (no record
registered); otherwise store the pending record, set the observed running
count to the registry size, and call `performSocketAction(-1, 0)`
synchronously within `addHandle`. -/
def addHandle (multiStrerror : Nat → String) (attachRes : Nat)
    (env : DriveEnv) (st : CoordState) (id : Nat) : AddHandleRes :=
  if !st.multiHandle then
    { state := st, outcome := .threwClosed, events := [] }
  else if attachRes ≠ 0 then
    { state := st, outcome := .rejectedNow (addFailMsg (multiStrerror attachRes)),
      events := [.nativeAdd id] }
  else
    let st1 := { st with registry := st.registry ++ [id] }
    let st2 := { st1 with lastRunningCount := (st1.registry.length : Int) }
    let r := performSocketAction env st2 (-1) 0
    { state := r.1, outcome := .pending, events := .nativeAdd id :: r.2 }

/-- The atomic coordinator operations whose interleavings the invariants
quantify over: one `handleMessageSafely` invocation of a drive-step
drain, one `fallbackCompletionCheck` invocation, `removeHandle`, `close`,
and one queued cleanup task.  Node runs each to completion before the
next starts. -/
inductive CoordOp where
  | drainMsg (probe : Nat → HandleProbe) (m : CurlMsg)
  | fallback (probe : Nat → HandleProbe)
  | removeH (id : Nat)
  | closeOp
  | cleanupTask

/-- Step one operation.  The drain operations carry the
`if (!this.multiHandle) return` guard of their enclosing
`readCompletedTransfers` / `checkCompletedRequests` call sites. -/
def coordStep (st : CoordState) : CoordOp → CoordState × List Ev
  | .drainMsg probe m =>
      if !st.multiHandle then (st, []) else handleMessageSafely probe m st
  | .fallback probe =>
      if !st.multiHandle then (st, []) else fallbackCompletionCheck probe st
  | .removeH id => removeHandle st id
  | .closeOp => close st
  | .cleanupTask => runCleanupTask st

/-- Run a sequence of operations, concatenating the event traces. -/
def runOps (st : CoordState) : List CoordOp → CoordState × List Ev
  | [] => (st, [])
  | op :: rest =>
      let r1 := coordStep st op
      let r2 := runOps r1.1 rest
      (r2.1, r1.2 ++ r2.2)

/-- Is this event a continuation firing (resolve or reject) for identity
`a`? -/
def isFire (a : Nat) : Ev → Bool
  | .resolveOk i => i == a
  | .rejectErr i _ => i == a
  | _ => false

/-- Number of continuation firings for identity `a` in a trace. -/
def fireCount (a : Nat) (evs : List Ev) : Nat :=
  (evs.filter (isFire a)).length

end Coord

namespace CoordTimer

/-- One `setTimeout` registration known to the Node runtime: its token
and the delay it was scheduled with. -/
abbrev TimerEntry := Nat × Int

/-- Timer-side state of the coordinator: `alive` is the
`if (!this.multiHandle) return` guard of `handleTimer`; `timerRef` is the
`this.timer` field (the token of the timeout the coordinator believes is
pending); `pending` is the runtime's set of scheduled-but-not-yet-fired
timeouts (a timeout stays scheduled in the runtime until it fires or is
passed to `clearTimeout`, whether or not `this.timer` still references
it); `fired` records the timeouts that actually fired. -/
structure TimerState where
  alive : Bool
  nextTok : Nat
  pending : List TimerEntry
  fired : List TimerEntry
  timerRef : Option Nat
  deriving Repr, DecidableEq

/-- State after the constructor: no timer scheduled. -/
def TimerState.init : TimerState :=
  { alive := true, nextTok := 0, pending := [], fired := [], timerRef := none }

/-- `handleTimer(timeoutMs)` (src/src/core/async_curl.ts lines 101-118):
return early if closed; `clearTimeout` any referenced timeout and null
the field; then for a non-negative delay schedule one fresh timeout and
store its reference, and for a negative delay schedule nothing. -/
def handleTimer (ts : TimerState) (timeoutMs : Int) : TimerState :=
  if !ts.alive then ts
  else
    let ts1 :=
      match ts.timerRef with
      | some tok =>
          { ts with pending := ts.pending.filter (fun p => p.1 ≠ tok),
                    timerRef := none }
      | none => ts
    if 0 ≤ timeoutMs then
      { ts1 with pending := ts1.pending ++ [(ts1.nextTok, timeoutMs)],
                 timerRef := some ts1.nextTok, nextTok := ts1.nextTok + 1 }
    else ts1

/-- The runtime fires the scheduled timeout with token `tok`, if it is
still scheduled (a cleared timeout can never fire). -/
def fireTimer (ts : TimerState) (tok : Nat) : TimerState :=
  match ts.pending.find? (fun p => p.1 == tok) with
  | none => ts
  | some e =>
      { ts with pending := ts.pending.filter (fun p => p.1 ≠ tok),
                fired := ts.fired ++ [e] }

/-- Timer-level operations: a native timer-callback notification with
some delay, or the runtime firing a scheduled timeout. -/
inductive TimerOp where
  | notify (timeoutMs : Int)
  | fire (tok : Nat)
  deriving Repr, DecidableEq

def timerStep (ts : TimerState) : TimerOp → TimerState
  | .notify t => handleTimer ts t
  | .fire tok => fireTimer ts tok

def runTimer (ops : List TimerOp) : TimerState :=
  ops.foldl timerStep TimerState.init

/-- Invariant: every scheduled timeout is the one `this.timer`
references, all tokens are below the counter, and at most one timeout is
outstanding. -/
def TimerInv (ts : TimerState) : Prop :=
  (∀ p ∈ ts.pending, ts.timerRef = some p.1) ∧
  (∀ p ∈ ts.pending, p.1 < ts.nextTok) ∧
  ts.pending.length ≤ 1

end CoordTimer

namespace MsgCoord

open Coord (Ev CurlMsg CURLMSG_DONE)

/-- Registry state of the polling coordinator variant (`curlToRequest` /
`curlToCurl`, keyed by the easy-handle pointer). -/
structure PollState where
  multiHandle : Bool
  registry : List Nat
  deriving Repr, DecidableEq

def pollFailMsg (s : String) : String := "请求失败: " ++ s

/-- `handleCompletedRequest(easyHandle, result)` of the polling variant
(src/unnamed/part_000 lines 135-173): look the pending record up by the
easy-handle key; when absent, discard silently; when present, detach
natively, delete both map entries, then resolve with the original `Curl`
on result 0 and otherwise reject with an error wrapping
`curl_easy_strerror(result)`. -/
def handleCompletedRequest (easyStrerror : Nat → String) (st : PollState)
    (easyHandle : Nat) (result : Nat) : PollState × List Ev :=
  if st.registry.contains easyHandle then
    ({ st with registry := st.registry.erase easyHandle },
     [.nativeRemove easyHandle, .removeRecord easyHandle,
      if result = 0 then .resolveOk easyHandle
      else .rejectErr easyHandle (pollFailMsg (easyStrerror result))])
  else (st, [])

/-- The message loop of `checkCompletedRequests` in the timer-only
variant (src/unnamed/part_008 lines 86-112): iterate `completedCount`
times; a null read or a non-DONE tag skips the iteration (`continue`);
for a DONE message take the easy-handle address as key, delete the record
(the `Map.delete` precedes the `if (!req) continue` check), skip when
none was present, and otherwise resolve on result 0 or reject with an
error wrapping `curl_multi_strerror(result)`. -/
def checkCompletedGo (multiStrerror : Nat → String) :
    Nat → List (Option CurlMsg) → List Nat → List Nat × List Ev
  | 0, _, reg => (reg, [])
  | n + 1, [], reg => checkCompletedGo multiStrerror n [] reg
  | n + 1, none :: rest, reg => checkCompletedGo multiStrerror n rest reg
  | n + 1, some m :: rest, reg =>
      if m.msg ≠ CURLMSG_DONE then checkCompletedGo multiStrerror n rest reg
      else
        let hid := m.easyHandle
        if reg.contains hid then
          let r := checkCompletedGo multiStrerror n rest (reg.erase hid)
          (r.1, [Ev.removeRecord hid,
                 if m.result = 0 then Ev.resolveOk hid
                 else Ev.rejectErr hid (multiStrerror m.result)] ++ r.2)
        else checkCompletedGo multiStrerror n rest reg

/-- `checkCompletedRequests(completedCount)` of the timer-only variant
(src/unnamed/part_008 lines 78-113). -/
def checkCompletedRequests (multiStrerror : Nat → String)
    (completedCount : Nat) (msgs : List (Option CurlMsg)) (reg : List Nat) :
    List Nat × List Ev :=
  if 0 < completedCount then checkCompletedGo multiStrerror completedCount msgs reg
  else (reg, [])

end MsgCoord

namespace Callbacks

theorem runBridge_counters (ops : List BridgeOp) :
    (runBridge ops).nextCallbackId = (runBridge ops).nextRefId :=
  (bridgeInv_run ops).1

theorem releaseCallback_not_mem (s : BridgeState) (id : Nat) :
    id ∉ (releaseCallback s id).registered ∧
    id ∉ (releaseCallback s id).references := by
  constructor <;>
    · intro h
      have := List.of_mem_filter h
      simp at this

theorem releaseCallback_noop (s : BridgeState) (id : Nat)
    (h1 : id ∉ s.registered) (h2 : id ∉ s.references) :
    releaseCallback s id = s := by
  unfold releaseCallback
  have e1 : s.registered.filter (fun k => k ≠ id) = s.registered := by
    apply List.filter_eq_self.mpr
    intro k hk
    simp only [decide_eq_true_eq]
    rintro rfl
    exact h1 hk
  have e2 : s.references.filter (fun k => k ≠ id) = s.references := by
    apply List.filter_eq_self.mpr
    intro k hk
    simp only [decide_eq_true_eq]
    rintro rfl
    exact h2 hk
  cases s
  simp_all

end Callbacks

/-- Claim C8: every callback-bridge trampoline invocation catches every
exception thrown by the wrapped managed closure and returns a
native-compatible sentinel instead of letting it propagate across the
native boundary: the write/header trampoline always returns normally and
yields the sentinel 0 whenever the closure throws (or the closure
reference is gone); the timer trampoline always returns 0 normally,
deferring the managed closure to a queued task so no closure exception
can occur inside the trampoline invocation at all. -/
theorem trampolines_never_propagate_exceptions
    (ref : Option Callbacks.BufClosure) (size nmemb : Nat)
    (data : Callbacks.Buf) (timeoutMs : Int) :
    (∃ n, Callbacks.bufferTrampoline ref size nmemb data = .ok n) ∧
    (∀ f, ref = some f → f data = .error () →
      Callbacks.bufferTrampoline ref size nmemb data = .ok 0) ∧
    (ref = none → Callbacks.bufferTrampoline ref size nmemb data = .ok 0) ∧
    (Callbacks.timerTrampoline timeoutMs).ret = .ok 0 ∧
    (Callbacks.timerTrampoline timeoutMs).deferredCalls = [timeoutMs] := by
  refine ⟨?_, ?_, ?_, rfl, rfl⟩
  · by_cases h0 : size * nmemb = 0
    · exact ⟨0, by simp [Callbacks.bufferTrampoline,
        Callbacks.bufferTrampolineBody, Callbacks.tryCatch, h0]⟩
    · match ref with
      | none =>
          exact ⟨0, by simp [Callbacks.bufferTrampoline,
            Callbacks.bufferTrampolineBody, Callbacks.tryCatch, h0]⟩
      | some f =>
          match h : f data with
          | .ok n =>
              exact ⟨n, by simp [Callbacks.bufferTrampoline,
                Callbacks.bufferTrampolineBody, Callbacks.tryCatch, h0, h]⟩
          | .error e =>
              exact ⟨0, by simp [Callbacks.bufferTrampoline,
                Callbacks.bufferTrampolineBody, Callbacks.tryCatch, h0, h]⟩
  · rintro f rfl hf
    by_cases h0 : size * nmemb = 0 <;>
      simp [Callbacks.bufferTrampoline, Callbacks.bufferTrampolineBody,
        Callbacks.tryCatch, h0, hf]
  · rintro rfl
    by_cases h0 : size * nmemb = 0 <;>
      simp [Callbacks.bufferTrampoline, Callbacks.bufferTrampolineBody,
        Callbacks.tryCatch, h0]

theorem trampolines_never_propagate_exceptions_witness :
    Callbacks.bufferTrampoline (some (fun _ => .error ())) 1 1 [7] = .ok 0 :=
  (trampolines_never_propagate_exceptions (some (fun _ => .error ())) 1 1
    [7] 0).2.1 (fun _ => .error ()) rfl rfl

/-- Claim C10: the two independent counters `nextCallbackId` and
`nextRefId` stay in lockstep across every sequence of bridge operations,
so the id each `create*` call returns equals the id it stored the closure
under; `releaseCallback(id)` removes the id from both the registered
trampoline table and the reference table; and `releaseCallback` on an id
that was never issued, or on any id absent from both tables (e.g. already
released), leaves the state unchanged. -/
theorem create_release_ids_lockstep (ops : List Callbacks.BridgeOp) :
    ((Callbacks.runBridge ops).nextCallbackId
        = (Callbacks.runBridge ops).nextRefId) ∧
    ((Callbacks.createCallbackEntry (Callbacks.runBridge ops)).2.1
        = (Callbacks.createCallbackEntry (Callbacks.runBridge ops)).2.2) ∧
    (∀ id, id ∉ (Callbacks.releaseCallback (Callbacks.runBridge ops) id).registered ∧
           id ∉ (Callbacks.releaseCallback (Callbacks.runBridge ops) id).references) ∧
    (∀ id, id ∉ (Callbacks.runBridge ops).registered →
           id ∉ (Callbacks.runBridge ops).references →
           Callbacks.releaseCallback (Callbacks.runBridge ops) id
             = Callbacks.runBridge ops) ∧
    (∀ id, (Callbacks.runBridge ops).nextCallbackId ≤ id →
           Callbacks.releaseCallback (Callbacks.runBridge ops) id
             = Callbacks.runBridge ops) := by
  obtain ⟨h1, h2, h3⟩ := Callbacks.bridgeInv_run ops
  refine ⟨h1, h1, ?_, ?_, ?_⟩
  · intro id
    exact Callbacks.releaseCallback_not_mem _ id
  · intro id ha hb
    exact Callbacks.releaseCallback_noop _ id ha hb
  · intro id hle
    apply Callbacks.releaseCallback_noop
    · intro hmem
      exact absurd (h2 id hmem) (by omega)
    · intro hmem
      have := h3 id hmem
      omega

theorem create_release_ids_lockstep_witness :
    ((Callbacks.runBridge [.create]).nextCallbackId
        = (Callbacks.runBridge [.create]).nextRefId) ∧
    ((Callbacks.createCallbackEntry (Callbacks.runBridge [.create])).2.1
        = (Callbacks.createCallbackEntry (Callbacks.runBridge [.create])).2.2) ∧
    (1 ∉ (Callbacks.releaseCallback (Callbacks.runBridge [.create]) 1).registered ∧
     1 ∉ (Callbacks.releaseCallback (Callbacks.runBridge [.create]) 1).references) ∧
    (Callbacks.releaseCallback (Callbacks.runBridge [.create]) 5
        = Callbacks.runBridge [.create]) :=
  ⟨(create_release_ids_lockstep [.create]).1,
   (create_release_ids_lockstep [.create]).2.1,
   (create_release_ids_lockstep [.create]).2.2.1 1,
   (create_release_ids_lockstep [.create]).2.2.2.2 5 (by decide)⟩

theorem readString_decode_fail (p : Nat) :
    CurlInfo.readString p (.error ()) = "" := by
  unfold CurlInfo.readString
  split
  · rfl
  · split <;> rfl

/-- Claim C9: `getinfo` selects its decode path from the type tag in the
info key's high bits (`info & 0xf00000`), and with an open handle it
never throws regardless of native or decode failures: a failed native
call (throw or non-zero code) yields `''` for string-tagged keys, `0`
for long-tagged keys, `0.0` for double-tagged keys and `null` for
pointer-tagged keys, and a `koffi.decode` failure on a string-tagged key
likewise yields `''`. -/
theorem getinfo_tag_dispatch_and_failure_defaults
    (env : CurlInfo.NativeInfoEnv) (info : Nat) :
    (∃ v, CurlInfo.getinfo env true info = .ok v) ∧
    (CurlInfo.infoTypeOf info = 0x100000 →
      (∃ s, CurlInfo.getinfo env true info = .ok (.vstr s)) ∧
      (CurlInfo.callFailed env.stringCall →
        CurlInfo.getinfo env true info = .ok (.vstr "")) ∧
      (env.stringDecode = .error () →
        CurlInfo.getinfo env true info = .ok (.vstr ""))) ∧
    (CurlInfo.infoTypeOf info = 0x200000 →
      (∃ n, CurlInfo.getinfo env true info = .ok (.vint n)) ∧
      (CurlInfo.callFailed env.longCall →
        CurlInfo.getinfo env true info = .ok (.vint 0))) ∧
    (CurlInfo.infoTypeOf info = 0x300000 →
      (∃ q, CurlInfo.getinfo env true info = .ok (.vdbl q)) ∧
      (CurlInfo.callFailed env.doubleCall →
        CurlInfo.getinfo env true info = .ok (.vdbl 0))) ∧
    (CurlInfo.infoTypeOf info = 0x400000 →
      ((CurlInfo.getinfo env true info = .ok .vnull) ∨
        (∃ a, CurlInfo.getinfo env true info = .ok (.vptr a))) ∧
      (CurlInfo.callFailed env.pointerCall →
        CurlInfo.getinfo env true info = .ok .vnull)) := by
  refine ⟨⟨_, rfl⟩, ?_, ?_, ?_, ?_⟩
  · intro htag
    refine ⟨?_, ?_, ?_⟩
    · match hc : env.stringCall with
      | .error e =>
          exact ⟨"", by simp [CurlInfo.getinfo, CurlInfo.getinfoBody, hc,
            htag, CurlInfo.getinfoDefault]⟩
      | .ok r =>
          by_cases hr : r = 0
          · exact ⟨CurlInfo.readString env.stringPtr env.stringDecode,
              by simp [CurlInfo.getinfo, CurlInfo.getinfoBody, hc, htag, hr]⟩
          · exact ⟨"", by simp [CurlInfo.getinfo, CurlInfo.getinfoBody, hc,
              htag, hr]⟩
    · intro hfail
      match hc : env.stringCall with
      | .error e =>
          simp [CurlInfo.getinfo, CurlInfo.getinfoBody, hc, htag,
            CurlInfo.getinfoDefault]
      | .ok r =>
          rw [hc] at hfail
          simp only [CurlInfo.callFailed] at hfail
          simp [CurlInfo.getinfo, CurlInfo.getinfoBody, hc, htag, hfail]
    · intro hdec
      match hc : env.stringCall with
      | .error e =>
          simp [CurlInfo.getinfo, CurlInfo.getinfoBody, hc, htag,
            CurlInfo.getinfoDefault]
      | .ok r =>
          by_cases hr : r = 0
          · simp [CurlInfo.getinfo, CurlInfo.getinfoBody, hc, htag, hr,
              hdec, readString_decode_fail]
          · simp [CurlInfo.getinfo, CurlInfo.getinfoBody, hc, htag, hr]
  · intro htag
    have hne : ¬ CurlInfo.infoTypeOf info = 0x100000 := by omega
    constructor
    · match hc : env.longCall with
      | .error e =>
          exact ⟨0, by simp [CurlInfo.getinfo, CurlInfo.getinfoBody, hc,
            htag, hne, CurlInfo.getinfoDefault]⟩
      | .ok r =>
          by_cases hr : r = 0
          · exact ⟨env.longVal, by simp [CurlInfo.getinfo,
              CurlInfo.getinfoBody, hc, htag, hne, hr]⟩
          · exact ⟨0, by simp [CurlInfo.getinfo, CurlInfo.getinfoBody, hc,
              htag, hne, hr]⟩
    · intro hfail
      match hc : env.longCall with
      | .error e =>
          simp [CurlInfo.getinfo, CurlInfo.getinfoBody, hc, htag, hne,
            CurlInfo.getinfoDefault]
      | .ok r =>
          rw [hc] at hfail
          simp only [CurlInfo.callFailed] at hfail
          simp [CurlInfo.getinfo, CurlInfo.getinfoBody, hc, htag, hne, hfail]
  · intro htag
    have hne1 : ¬ CurlInfo.infoTypeOf info = 0x100000 := by omega
    have hne2 : ¬ CurlInfo.infoTypeOf info = 0x200000 := by omega
    constructor
    · match hc : env.doubleCall with
      | .error e =>
          exact ⟨0, by simp [CurlInfo.getinfo, CurlInfo.getinfoBody, hc,
            htag, hne1, hne2, CurlInfo.getinfoDefault]⟩
      | .ok r =>
          by_cases hr : r = 0
          · exact ⟨env.doubleVal, by simp [CurlInfo.getinfo,
              CurlInfo.getinfoBody, hc, htag, hne1, hne2, hr]⟩
          · exact ⟨0, by simp [CurlInfo.getinfo, CurlInfo.getinfoBody, hc,
              htag, hne1, hne2, hr]⟩
    · intro hfail
      match hc : env.doubleCall with
      | .error e =>
          simp [CurlInfo.getinfo, CurlInfo.getinfoBody, hc, htag, hne1,
            hne2, CurlInfo.getinfoDefault]
      | .ok r =>
          rw [hc] at hfail
          simp only [CurlInfo.callFailed] at hfail
          simp [CurlInfo.getinfo, CurlInfo.getinfoBody, hc, htag, hne1,
            hne2, hfail]
  · intro htag
    have hne1 : ¬ CurlInfo.infoTypeOf info = 0x100000 := by omega
    have hne2 : ¬ CurlInfo.infoTypeOf info = 0x200000 := by omega
    have hne3 : ¬ CurlInfo.infoTypeOf info = 0x300000 := by omega
    constructor
    · match hc : env.pointerCall with
      | .error e =>
          exact Or.inl (by simp [CurlInfo.getinfo, CurlInfo.getinfoBody, hc,
            htag, hne1, hne2, hne3, CurlInfo.getinfoDefault])
      | .ok r =>
          by_cases hr : r = 0
          · by_cases hp : env.pointerVal = 0
            · exact Or.inl (by simp [CurlInfo.getinfo, CurlInfo.getinfoBody,
                hc, htag, hne1, hne2, hne3, hr, hp])
            · exact Or.inr ⟨env.pointerVal,
                by simp [CurlInfo.getinfo, CurlInfo.getinfoBody, hc, htag,
                  hne1, hne2, hne3, hr, hp]⟩
          · exact Or.inl (by simp [CurlInfo.getinfo, CurlInfo.getinfoBody,
              hc, htag, hne1, hne2, hne3, hr])
    · intro hfail
      match hc : env.pointerCall with
      | .error e =>
          simp [CurlInfo.getinfo, CurlInfo.getinfoBody, hc, htag, hne1,
            hne2, hne3, CurlInfo.getinfoDefault]
      | .ok r =>
          rw [hc] at hfail
          simp only [CurlInfo.callFailed] at hfail
          simp [CurlInfo.getinfo, CurlInfo.getinfoBody, hc, htag, hne1,
            hne2, hne3, hfail]

theorem getinfo_tag_dispatch_and_failure_defaults_witness :
    CurlInfo.getinfo
        ⟨.error (), 0, .error (), .error (), 3, .error (), 5, .error (), 9⟩
        true 0x100002 = .ok (.vstr "") ∧
    CurlInfo.getinfo
        ⟨.error (), 0, .error (), .error (), 3, .error (), 5, .error (), 9⟩
        true 0x200002 = .ok (.vint 0) ∧
    CurlInfo.getinfo
        ⟨.error (), 0, .error (), .error (), 3, .error (), 5, .error (), 9⟩
        true 0x300002 = .ok (.vdbl 0) ∧
    CurlInfo.getinfo
        ⟨.error (), 0, .error (), .error (), 3, .error (), 5, .error (), 9⟩
        true 0x400002 = .ok .vnull :=
  ⟨((getinfo_tag_dispatch_and_failure_defaults
      ⟨.error (), 0, .error (), .error (), 3, .error (), 5, .error (), 9⟩
      0x100002).2.1 (by decide)).2.1 trivial,
   ((getinfo_tag_dispatch_and_failure_defaults
      ⟨.error (), 0, .error (), .error (), 3, .error (), 5, .error (), 9⟩
      0x200002).2.2.1 (by decide)).2 trivial,
   ((getinfo_tag_dispatch_and_failure_defaults
      ⟨.error (), 0, .error (), .error (), 3, .error (), 5, .error (), 9⟩
      0x300002).2.2.2.1 (by decide)).2 trivial,
   ((getinfo_tag_dispatch_and_failure_defaults
      ⟨.error (), 0, .error (), .error (), 3, .error (), 5, .error (), 9⟩
      0x400002).2.2.2.2 (by decide)).2 trivial⟩

/-- Claim C5: `addHandle` after the coordinator is closed fails with the
closed error (and changes nothing); and when the native attach primitive
returns non-zero, the returned future is rejected immediately with an
error wrapping the native error string for that code, and no pending
record is registered — the registry is unchanged on this error path. -/
theorem addHandle_closed_and_attach_failure
    (mse : Nat → String) (attachRes : Nat) (env : Coord.DriveEnv)
    (st : Coord.CoordState) (id : Nat) :
    (st.multiHandle = false →
      (Coord.addHandle mse attachRes env st id).outcome = .threwClosed ∧
      (Coord.addHandle mse attachRes env st id).state = st) ∧
    (st.multiHandle = true → attachRes ≠ 0 →
      (Coord.addHandle mse attachRes env st id).outcome
        = .rejectedNow ("添加句柄失败: " ++ mse attachRes) ∧
      (Coord.addHandle mse attachRes env st id).state.registry
        = st.registry) := by
  constructor
  · intro hclosed
    unfold Coord.addHandle
    rw [hclosed]
    exact ⟨rfl, rfl⟩
  · intro hopen hres
    unfold Coord.addHandle
    rw [hopen]
    simp [hres, Coord.addFailMsg]

theorem addHandle_closed_and_attach_failure_witness :
    ((Coord.addHandle (fun n => "E" ++ toString n) 3
        ⟨fun _ => ⟨false, 0, 0, false, "", 0⟩, 0, 0, 0, []⟩
        ⟨false, [9], none, none, false, 0, 0⟩ 7).outcome = .threwClosed ∧
     (Coord.addHandle (fun n => "E" ++ toString n) 3
        ⟨fun _ => ⟨false, 0, 0, false, "", 0⟩, 0, 0, 0, []⟩
        ⟨false, [9], none, none, false, 0, 0⟩ 7).state
       = ⟨false, [9], none, none, false, 0, 0⟩) ∧
    ((Coord.addHandle (fun n => "E" ++ toString n) 3
        ⟨fun _ => ⟨false, 0, 0, false, "", 0⟩, 0, 0, 0, []⟩
        ⟨true, [9], none, none, false, 0, 0⟩ 7).outcome
       = .rejectedNow ("添加句柄失败: " ++ ("E" ++ toString 3)) ∧
     (Coord.addHandle (fun n => "E" ++ toString n) 3
        ⟨fun _ => ⟨false, 0, 0, false, "", 0⟩, 0, 0, 0, []⟩
        ⟨true, [9], none, none, false, 0, 0⟩ 7).state.registry = [9]) :=
  ⟨(addHandle_closed_and_attach_failure (fun n => "E" ++ toString n) 3
      ⟨fun _ => ⟨false, 0, 0, false, "", 0⟩, 0, 0, 0, []⟩
      ⟨false, [9], none, none, false, 0, 0⟩ 7).1 rfl,
   (addHandle_closed_and_attach_failure (fun n => "E" ++ toString n) 3
      ⟨fun _ => ⟨false, 0, 0, false, "", 0⟩, 0, 0, 0, []⟩
      ⟨true, [9], none, none, false, 0, 0⟩ 7).2 rfl (by decide)⟩

/-- Claim C4 counterexample: in `addHandle` the triggering drive step is
NOT deferred — `performSocketAction(-1, 0)` runs synchronously inside the
`addHandle` call (its event trace contains the drive step), refuting the
deferral half of the claim at this concrete input. -/
theorem addHandle_drive_step_is_synchronous :
    Coord.Ev.driveStep ∈
      (Coord.addHandle (fun _ => "") 0
        ⟨fun _ => ⟨false, 0, 0, false, "", 0⟩, 0, 1, 0, []⟩
        ⟨true, [], some 1, some 2, false, 0, 0⟩ 7).events := by decide

/-- Claim C4 (amended): the drive step triggered by `addHandle` runs
synchronously within `addHandle` (not deferred) whenever the coordinator
is open and the native attach succeeds; the native timer-callback
trampoline, by contrast, never runs the managed handler (and hence the
drive step) synchronously — it returns 0 immediately and defers the
handler to a queued task. -/
theorem addHandle_sync_drive_trampoline_defers
    (mse : Nat → String) (env : Coord.DriveEnv) (st : Coord.CoordState)
    (id : Nat) (t : Int) (hopen : st.multiHandle = true) :
    Coord.Ev.driveStep ∈ (Coord.addHandle mse 0 env st id).events ∧
    (Callbacks.timerTrampoline t).ret = .ok 0 ∧
    (Callbacks.timerTrampoline t).deferredCalls = [t] := by
  refine ⟨?_, rfl, rfl⟩
  unfold Coord.addHandle
  rw [hopen]
  unfold Coord.performSocketAction
  simp [hopen]

theorem addHandle_sync_drive_trampoline_defers_witness :
    Coord.Ev.driveStep ∈
      (Coord.addHandle (fun _ => "x") 0
        ⟨fun _ => ⟨false, 0, 0, false, "", 0⟩, 0, 2, 0, []⟩
        ⟨true, [3], none, none, false, 1, 0⟩ 4).events ∧
    (Callbacks.timerTrampoline 25).ret = .ok 0 ∧
    (Callbacks.timerTrampoline 25).deferredCalls = [25] :=
  addHandle_sync_drive_trampoline_defers (fun _ => "x") _ _ 4 25 rfl

/-- Claim C2 (code finding): `handleMessageSafely` never consults the
drained completion message — its result is identical for any two messages
— and at the concrete input below it resolves the pending record of
identity 7 although the supplied message has kind tag 0 (not DONE) and
its embedded session pointer is 9, not 7: resolution is driven by the
`getinfo` heuristics, not by the message's kind tag and pointer. -/
theorem drain_ignores_completion_message :
    (∀ (probe : Nat → Coord.HandleProbe) (st : Coord.CoordState)
       (m1 m2 : Coord.CurlMsg),
       Coord.handleMessageSafely probe m1 st
         = Coord.handleMessageSafely probe m2 st) ∧
    ((Coord.handleMessageSafely (fun _ => ⟨false, 200, 0, false, "", 0⟩)
        ⟨0, 9, 7⟩ ⟨true, [7], none, none, false, 1, 0⟩).2
      = [.nativeRemove 7, .removeRecord 7, .resolveOk 7]) ∧
    ((0 : Nat) ≠ Coord.CURLMSG_DONE ∧ (9 : Nat) ≠ 7) :=
  ⟨fun _ _ _ _ => rfl, by decide, by decide⟩

/-- Claim C3 (code finding): the polling variant's
`handleCompletedRequest` does what the claim says — result 0 resolves
with the original handle, non-zero rejects wrapping
`curl_easy_strerror(result)` — but the timer-only variant's
`checkCompletedRequests` rejects wrapping `curl_multi_strerror(result)`,
the multi-error table, for the easy result code embedded in the message;
the two strings differ for code 28 (instantiated here with distinct
lookup tables), so its message does not include the native string for
code 28. -/
theorem done_message_strerror_table_mismatch :
    ((MsgCoord.handleCompletedRequest (fun n => "E" ++ toString n)
        ⟨true, [5]⟩ 5 28).2
      = [.nativeRemove 5, .removeRecord 5,
         .rejectErr 5 ("请求失败: " ++ ("E" ++ toString 28))]) ∧
    ((MsgCoord.handleCompletedRequest (fun n => "E" ++ toString n)
        ⟨true, [5]⟩ 5 0).2
      = [.nativeRemove 5, .removeRecord 5, .resolveOk 5]) ∧
    ((MsgCoord.checkCompletedRequests (fun n => "M" ++ toString n) 1
        [some ⟨1, 5, 28⟩] [5]).2
      = [.removeRecord 5, .rejectErr 5 ("M" ++ toString 28)]) ∧
    (("M" ++ toString 28 : String) ≠ "E" ++ toString 28) := by decide

/-- Claim C6 (code finding): with two pending handles, a second `close()`
issued before the deferred cleanup task has run re-executes the close
body and queues a second cleanup task, so `curl_multi_cleanup` is
invoked twice over the coordinator's lifetime (the second time with the
already-nulled engine reference) and the second `close()` is not a
no-op; the first close does cancel the outstanding timer and rejects
each pending record with the closed error exactly once. -/
theorem double_close_runs_native_cleanup_twice :
    ((((Coord.runOps ⟨true, [1, 2], some 1, some 2, true, 2, 0⟩
          [.closeOp, .closeOp, .cleanupTask, .cleanupTask]).2.filter
        (fun e => e == Coord.Ev.multiCleanup)).length = 2) ∧
     ((Coord.coordStep
         (Coord.coordStep ⟨true, [1, 2], some 1, some 2, true, 2, 0⟩
           .closeOp).1 .closeOp).2 ≠ [])) ∧
    (Coord.fireCount 1
        (Coord.runOps ⟨true, [1, 2], some 1, some 2, true, 2, 0⟩
          [.closeOp, .closeOp, .cleanupTask, .cleanupTask]).2 = 1) ∧
    (Coord.fireCount 2
        (Coord.runOps ⟨true, [1, 2], some 1, some 2, true, 2, 0⟩
          [.closeOp, .closeOp, .cleanupTask, .cleanupTask]).2 = 1) ∧
    (Coord.Ev.cancelTimer ∈
        (Coord.runOps ⟨true, [1, 2], some 1, some 2, true, 2, 0⟩
          [.closeOp, .closeOp, .cleanupTask, .cleanupTask]).2) ∧
    (Coord.Ev.rejectErr 1 Coord.closedMsg ∈
        (Coord.runOps ⟨true, [1, 2], some 1, some 2, true, 2, 0⟩
          [.closeOp, .closeOp, .cleanupTask, .cleanupTask]).2) ∧
    (Coord.Ev.rejectErr 2 Coord.closedMsg ∈
        (Coord.runOps ⟨true, [1, 2], some 1, some 2, true, 2, 0⟩
          [.closeOp, .closeOp, .cleanupTask, .cleanupTask]).2) := by decide

namespace CoordTimer

theorem timerInv_init : TimerInv TimerState.init := by
  refine ⟨?_, ?_, ?_⟩ <;> simp [TimerState.init, TimerInv]

theorem handleTimer_alive (ts : TimerState) (t : Int) :
    (handleTimer ts t).alive = ts.alive := by
  unfold handleTimer
  split
  · rfl
  · split <;> split <;> rfl

theorem fireTimer_alive (ts : TimerState) (tok : Nat) :
    (fireTimer ts tok).alive = ts.alive := by
  unfold fireTimer
  split <;> rfl

theorem timerStep_alive (ts : TimerState) (op : TimerOp) :
    (timerStep ts op).alive = ts.alive := by
  cases op with
  | notify t => exact handleTimer_alive ts t
  | fire tok => exact fireTimer_alive ts tok

theorem runTimer_alive (ops : List TimerOp) : (runTimer ops).alive = true := by
  suffices h : ∀ ts, ts.alive = true → (ops.foldl timerStep ts).alive = true from
    h TimerState.init rfl
  induction ops with
  | nil => intro ts h; exact h
  | cons op rest ih =>
      intro ts h
      exact ih (timerStep ts op) ((timerStep_alive ts op).trans h)

/-- Explicit form of `handleTimer` on an invariant-satisfying live state:
the referenced timeout (if any) is cleared, and exactly the fresh one (for
a non-negative delay) remains scheduled. -/
theorem handleTimer_eq (ts : TimerState) (t : Int) (h : TimerInv ts)
    (halive : ts.alive = true) :
    handleTimer ts t =
      (if 0 ≤ t then
        { alive := ts.alive, nextTok := ts.nextTok + 1,
          pending := [(ts.nextTok, t)], fired := ts.fired,
          timerRef := some ts.nextTok }
      else
        { alive := ts.alive, nextTok := ts.nextTok, pending := [],
          fired := ts.fired, timerRef := none }) := by
  obtain ⟨al, nt, pd, fd, tr⟩ := ts
  simp only at halive
  subst halive
  unfold handleTimer
  cases tr with
  | some tok =>
      have hall : ∀ (a : Nat) (b : Int), (a, b) ∈ pd → a = tok := by
        intro a b hmem
        have := h.1 (a, b) hmem
        simp only [Option.some.injEq] at this
        exact this.symm
      have hempty : pd.filter (fun p => p.1 ≠ tok) = [] := by
        apply List.filter_eq_nil_iff.mpr
        intro p hp
        simp [hall p.1 p.2 hp]
      by_cases ht : 0 ≤ t <;> simp [ht, hempty] <;> exact hall
  | none =>
      have hempty : pd = [] := by
        apply List.eq_nil_iff_forall_not_mem.mpr
        intro p hp
        exact Option.noConfusion (h.1 p hp)
      subst hempty
      by_cases ht : 0 ≤ t <;> simp [ht]

theorem timerInv_handleTimer (ts : TimerState) (t : Int) (h : TimerInv ts) :
    TimerInv (handleTimer ts t) := by
  by_cases halive : ts.alive
  · rw [handleTimer_eq ts t h halive]
    by_cases ht : 0 ≤ t
    · simp only [ht, if_true]
      refine ⟨?_, ?_, ?_⟩ <;> simp
    · simp only [ht, if_false]
      refine ⟨?_, ?_, ?_⟩ <;> simp
  · unfold handleTimer
    simp only [Bool.not_eq_true] at halive
    rw [halive]
    simpa using h

theorem timerInv_fireTimer (ts : TimerState) (tok : Nat) (h : TimerInv ts) :
    TimerInv (fireTimer ts tok) := by
  obtain ⟨h1, h2, h3⟩ := h
  unfold fireTimer
  cases hf : ts.pending.find? (fun p => p.1 == tok) with
  | none => exact ⟨h1, h2, h3⟩
  | some e =>
      refine ⟨?_, ?_, ?_⟩
      · intro p hp
        exact h1 p (List.mem_of_mem_filter hp)
      · intro p hp
        exact h2 p (List.mem_of_mem_filter hp)
      · exact le_trans (List.length_filter_le _ _) h3

theorem timerInv_run (ops : List TimerOp) : TimerInv (runTimer ops) := by
  suffices h : ∀ ts, TimerInv ts → TimerInv (ops.foldl timerStep ts) from
    h TimerState.init timerInv_init
  induction ops with
  | nil => intro ts h; exact h
  | cons op rest ih =>
      intro ts h
      refine ih (timerStep ts op) ?_
      cases op with
      | notify t => exact timerInv_handleTimer ts t h
      | fire tok => exact timerInv_fireTimer ts tok h

/-- A timer entry that is neither scheduled nor fired, with a stale
token, can never become scheduled or fire later. -/
def DeadEntry (e : TimerEntry) (ts : TimerState) : Prop :=
  e ∉ ts.pending ∧ e ∉ ts.fired ∧ e.1 < ts.nextTok

theorem deadEntry_handleTimer (e : TimerEntry) (ts : TimerState) (t : Int)
    (h : DeadEntry e ts) : DeadEntry e (handleTimer ts t) := by
  obtain ⟨h1, h2, h3⟩ := h
  unfold handleTimer
  by_cases halive : ts.alive
  · rw [halive]
    simp only [Bool.not_true, Bool.false_eq_true, if_false]
    cases href : ts.timerRef with
    | some tok =>
        by_cases ht : 0 ≤ t
        · simp only [ht, if_true]
          refine ⟨?_, h2, by simp; omega⟩
          intro hmem
          simp only [List.mem_append, List.mem_singleton] at hmem
          rcases hmem with hmem | hmem
          · exact h1 (List.mem_of_mem_filter hmem)
          · rw [hmem] at h3
            simp at h3
        · simp only [ht, if_false]
          refine ⟨?_, h2, h3⟩
          intro hmem
          exact h1 (List.mem_of_mem_filter hmem)
    | none =>
        by_cases ht : 0 ≤ t
        · simp only [ht, if_true]
          refine ⟨?_, h2, by simp; omega⟩
          intro hmem
          simp only [List.mem_append, List.mem_singleton] at hmem
          rcases hmem with hmem | hmem
          · exact h1 hmem
          · rw [hmem] at h3
            simp at h3
        · simp only [ht, if_false]
          exact ⟨h1, h2, h3⟩
  · simp only [Bool.not_eq_true] at halive
    rw [halive]
    exact ⟨h1, h2, h3⟩

theorem deadEntry_fireTimer (e : TimerEntry) (ts : TimerState) (tok : Nat)
    (h : DeadEntry e ts) : DeadEntry e (fireTimer ts tok) := by
  obtain ⟨h1, h2, h3⟩ := h
  unfold fireTimer
  cases hf : ts.pending.find? (fun p => p.1 == tok) with
  | none => exact ⟨h1, h2, h3⟩
  | some e2 =>
      have he2 : e2 ∈ ts.pending := List.mem_of_find?_eq_some hf
      refine ⟨?_, ?_, h3⟩
      · intro hmem
        exact h1 (List.mem_of_mem_filter hmem)
      · intro hmem
        simp only [List.mem_append, List.mem_singleton] at hmem
        rcases hmem with hmem | hmem
        · exact h2 hmem
        · rw [hmem] at h1
          exact h1 he2

theorem deadEntry_run (e : TimerEntry) (ts : TimerState)
    (more : List TimerOp) (h : DeadEntry e ts) :
    DeadEntry e (more.foldl timerStep ts) := by
  induction more generalizing ts with
  | nil => exact h
  | cons op rest ih =>
      refine ih (timerStep ts op) ?_
      cases op with
      | notify t => exact deadEntry_handleTimer e ts t h
      | fire tok => exact deadEntry_fireTimer e ts tok h

end CoordTimer

/-- Claim C7: across any sequence of native timer notifications and
timer firings, at most one deferred drive-step timeout is outstanding at
any time; a new non-negative delay cancels and replaces any previously
scheduled but not-yet-fired timeout (after notifications of 50ms then
10ms, only the 10ms timeout is scheduled, only it fires, and the 50ms
one can never fire no matter what follows); and a negative delay leaves
no timeout scheduled. -/
theorem timer_at_most_one_outstanding
    (ops more : List CoordTimer.TimerOp) (t : Int) (ht : t < 0) :
    ((CoordTimer.runTimer ops).pending.length ≤ 1) ∧
    ((CoordTimer.handleTimer (CoordTimer.runTimer ops) t).pending = []) ∧
    ((CoordTimer.runTimer
        [.notify 50, .notify 10]).pending = [(1, 10)]) ∧
    ((CoordTimer.runTimer
        [.notify 50, .notify 10, .fire 0, .fire 1]).fired = [(1, 10)]) ∧
    ((0, 50) ∉ (CoordTimer.runTimer
        ([.notify 50, .notify 10] ++ more)).fired) := by
  have hinv := CoordTimer.timerInv_run ops
  have halive := CoordTimer.runTimer_alive ops
  refine ⟨hinv.2.2, ?_, by decide, by decide, ?_⟩
  · rw [CoordTimer.handleTimer_eq _ t hinv halive]
    have hneg : ¬ (0 ≤ t) := by omega
    simp [hneg]
  · have hdead : CoordTimer.DeadEntry (0, 50)
        (CoordTimer.runTimer [.notify 50, .notify 10]) :=
      ⟨by decide, by decide, by decide⟩
    have hrun := CoordTimer.deadEntry_run (0, 50)
      (CoordTimer.runTimer [.notify 50, .notify 10]) more hdead
    have hfold : CoordTimer.runTimer ([.notify 50, .notify 10] ++ more)
        = more.foldl CoordTimer.timerStep
            (CoordTimer.runTimer [.notify 50, .notify 10]) := by
      unfold CoordTimer.runTimer
      exact List.foldl_append _ _ _ _
    rw [hfold]
    exact hrun.2.1

theorem timer_at_most_one_outstanding_witness :
    ((CoordTimer.runTimer [.notify 5, .fire 0]).pending.length ≤ 1) ∧
    ((CoordTimer.handleTimer (CoordTimer.runTimer [.notify 5, .fire 0])
        (-1)).pending = []) ∧
    ((CoordTimer.runTimer
        [.notify 50, .notify 10]).pending = [(1, 10)]) ∧
    ((CoordTimer.runTimer
        [.notify 50, .notify 10, .fire 0, .fire 1]).fired = [(1, 10)]) ∧
    ((0, 50) ∉ (CoordTimer.runTimer
        ([.notify 50, .notify 10] ++ [.fire 0, .notify 7])).fired) :=
  timer_at_most_one_outstanding [.notify 5, .fire 0] [.fire 0, .notify 7]
    (-1) (by decide)

namespace Coord

theorem fireCount_nil (a : Nat) : fireCount a [] = 0 := rfl

theorem fireCount_cons (a : Nat) (e : Ev) (l : List Ev) :
    fireCount a (e :: l)
      = (if isFire a e then 1 else 0) + fireCount a l := by
  unfold fireCount
  by_cases h : isFire a e <;> simp [h, List.filter_cons, Nat.add_comm]

theorem fireCount_append (a : Nat) (l1 l2 : List Ev) :
    fireCount a (l1 ++ l2) = fireCount a l1 + fireCount a l2 := by
  unfold fireCount
  simp [List.filter_append]

/-- The event block `handleMessageSafely` emits for the entry it
completes: a native detach, the registry removal, then exactly one
continuation event for that same identity. -/
theorem msgSafeEvents_shape (p : HandleProbe) (id : Nat) :
    ∃ x, msgSafeEvents p id = [Ev.nativeRemove id, Ev.removeRecord id, x] ∧
      ∀ a, isFire a x = (id == a) := by
  unfold msgSafeEvents
  by_cases h1 : p.infoThrows = true
  · refine ⟨Ev.rejectErr id infoFailMsg, by simp [h1], ?_⟩
    intro a
    simp [isFire]
  · simp only [h1, Bool.false_eq_true, if_false]
    refine ⟨_, rfl, ?_⟩
    intro a
    by_cases h2 : 100 ≤ p.responseCode
    · rw [if_pos h2]
      simp [isFire]
    · rw [if_neg h2]
      by_cases h3 : (1 / 100 : Rat) < p.totalTime
      · rw [if_pos h3]
        by_cases h4 : p.detailThrows = true
        · rw [if_pos h4]
          simp [isFire]
        · rw [if_neg h4]
          by_cases h5 : p.primaryIp.length ≠ 0
          · rw [if_pos h5]
            simp [isFire]
          · rw [if_neg h5]
            simp [isFire]
      · rw [if_neg h3]
        simp [isFire]

theorem fireCount_shape (a id : Nat) (x : Ev)
    (hx : ∀ b, isFire b x = (id == b)) :
    fireCount a [Ev.nativeRemove id, Ev.removeRecord id, x]
      = if id = a then 1 else 0 := by
  rw [fireCount_cons, fireCount_cons, fireCount_cons, fireCount_nil]
  have h1 : isFire a (Ev.nativeRemove id) = false := rfl
  have h2 : isFire a (Ev.removeRecord id) = false := rfl
  rw [h1, h2, hx a]
  by_cases h : id = a
  · simp [h]
  · simp [h, Ne.symm h]

/-- The first scan hit is a registry member carrying its standard event
block. -/
theorem msgSafeScan_spec (probe : Nat → HandleProbe) (reg : List Nat)
    (id : Nat) (evs : List Ev) (h : msgSafeScan probe reg = some (id, evs)) :
    id ∈ reg ∧ evs = msgSafeEvents (probe id) id := by
  induction reg with
  | nil => simp [msgSafeScan] at h
  | cons x rest ih =>
      unfold msgSafeScan at h
      by_cases h1 : (probe x).infoThrows = true
      · simp only [h1, if_true] at h
        obtain ⟨rfl, rfl⟩ := Prod.mk.injEq .. ▸ Option.some.injEq .. ▸ h
        · exact ⟨List.mem_cons_self x rest, rfl⟩
      · simp only [h1, Bool.false_eq_true, if_false] at h
        by_cases h2 : msgSafeCompleted (probe x) = true
        · simp only [h2, if_true] at h
          obtain ⟨rfl, rfl⟩ := Prod.mk.injEq .. ▸ Option.some.injEq .. ▸ h
          · exact ⟨List.mem_cons_self x rest, rfl⟩
        · simp only [h2, Bool.false_eq_true, if_false] at h
          obtain ⟨hmem, hevs⟩ := ih h
          exact ⟨List.mem_cons_of_mem x hmem, hevs⟩

/-- The first fallback-scan hit is a registry member; when it deletes the
record its event block ends in one continuation for that identity, and
otherwise it emits only the native detach. -/
theorem fallbackScan_spec (probe : Nat → HandleProbe) (reg : List Nat)
    (id : Nat) (b : Bool) (evs : List Ev)
    (h : fallbackScan probe reg = some (id, b, evs)) :
    id ∈ reg ∧
    ((b = true ∧ ∃ x, evs = [Ev.nativeRemove id, Ev.removeRecord id, x] ∧
        ∀ a, isFire a x = (id == a)) ∨
     (b = false ∧ evs = [Ev.nativeRemove id])) := by
  induction reg with
  | nil => simp [fallbackScan] at h
  | cons y rest ih =>
      unfold fallbackScan at h
      by_cases h1 : (probe y).infoThrows = true
      · simp only [h1, if_true] at h
        by_cases hr : (probe y).removeRes = 0
        · simp only [hr, if_true] at h
          obtain ⟨rfl, rfl, rfl⟩ :=
            Prod.mk.injEq .. ▸ Option.some.injEq .. ▸ h
          · refine ⟨List.mem_cons_self y rest, Or.inl ⟨rfl, _, rfl, ?_⟩⟩
            intro a
            simp [isFire]
        · simp only [hr, if_false] at h
          obtain ⟨rfl, rfl, rfl⟩ :=
            Prod.mk.injEq .. ▸ Option.some.injEq .. ▸ h
          · exact ⟨List.mem_cons_self y rest, Or.inr ⟨rfl, rfl⟩⟩
      · simp only [h1, Bool.false_eq_true, if_false] at h
        by_cases h2 : ((0 : Int) < (probe y).responseCode) ∨
            ((1 / 1000 : Rat) < (probe y).totalTime)
        · rw [if_pos (by simpa using h2)] at h
          by_cases hr : (probe y).removeRes = 0
          · simp only [hr, if_true] at h
            obtain ⟨rfl, rfl, rfl⟩ :=
              Prod.mk.injEq .. ▸ Option.some.injEq .. ▸ h
            · refine ⟨List.mem_cons_self y rest, Or.inl ⟨rfl, _, rfl, ?_⟩⟩
              intro a
              by_cases h3 : (0 : Int) < (probe y).responseCode <;>
                simp [h3, isFire]
          · simp only [hr, if_false] at h
            obtain ⟨rfl, rfl, rfl⟩ :=
              Prod.mk.injEq .. ▸ Option.some.injEq .. ▸ h
            · exact ⟨List.mem_cons_self y rest, Or.inr ⟨rfl, rfl⟩⟩
        · rw [if_neg (by simpa using h2)] at h
          obtain ⟨hmem, hrest⟩ := ih h
          exact ⟨List.mem_cons_of_mem y hmem, hrest⟩

end Coord

namespace Coord

/-- What one atomic coordinator operation guarantees about a fixed
identity `a`: the registry only shrinks and stays duplicate-free, at most
one continuation for `a` fires, and a firing implies `a` was pending
before and is no longer registered afterwards. -/
def StepOk (a : Nat) (st : CoordState) (r : CoordState × List Ev) : Prop :=
  (∀ b ∈ r.1.registry, b ∈ st.registry) ∧
  r.1.registry.Nodup ∧
  fireCount a r.2 ≤ 1 ∧
  (1 ≤ fireCount a r.2 → a ∈ st.registry ∧ a ∉ r.1.registry)

theorem not_mem_erase_self (a : Nat) (l : List Nat) (hnd : l.Nodup) :
    a ∉ l.erase a := by
  intro hmem
  have := (List.Nodup.mem_erase_iff hnd).mp hmem
  exact this.1 rfl

theorem handleMessageSafely_stepOk (a : Nat) (probe : Nat → HandleProbe)
    (m : CurlMsg) (st : CoordState) (hnd : st.registry.Nodup) :
    StepOk a st (handleMessageSafely probe m st) := by
  unfold handleMessageSafely
  cases hscan : msgSafeScan probe st.registry with
  | none =>
      exact ⟨fun b hb => hb, hnd, by simp [fireCount_nil],
        by simp [fireCount_nil]⟩
  | some pr =>
      obtain ⟨id, evs⟩ := pr
      obtain ⟨hmem, hevs⟩ := msgSafeScan_spec probe st.registry id evs hscan
      obtain ⟨x, hx1, hx2⟩ := msgSafeEvents_shape (probe id) id
      have hfc : fireCount a evs = if id = a then 1 else 0 := by
        rw [hevs, hx1]
        exact fireCount_shape a id x hx2
      refine ⟨?_, ?_, ?_, ?_⟩
      · intro b hb
        exact List.mem_of_mem_erase hb
      · exact hnd.erase id
      · rw [hfc]
        split <;> omega
      · intro hge
        rw [hfc] at hge
        by_cases hid : id = a
        · subst hid
          exact ⟨hmem, not_mem_erase_self id st.registry hnd⟩
        · simp [hid] at hge

theorem fallbackCompletionCheck_stepOk (a : Nat) (probe : Nat → HandleProbe)
    (st : CoordState) (hnd : st.registry.Nodup) :
    StepOk a st (fallbackCompletionCheck probe st) := by
  unfold fallbackCompletionCheck
  cases hscan : fallbackScan probe st.registry with
  | none =>
      exact ⟨fun b hb => hb, hnd, by simp [fireCount_nil],
        by simp [fireCount_nil]⟩
  | some pr =>
      obtain ⟨id, b, evs⟩ := pr
      obtain ⟨hmem, hsh⟩ := fallbackScan_spec probe st.registry id b evs hscan
      cases b with
      | true =>
          rcases hsh with ⟨_, x, hx1, hx2⟩ | ⟨hfalse, _⟩
          · have hfc : fireCount a evs = if id = a then 1 else 0 := by
              rw [hx1]
              exact fireCount_shape a id x hx2
            refine ⟨?_, ?_, ?_, ?_⟩
            · intro c hc
              exact List.mem_of_mem_erase hc
            · exact hnd.erase id
            · rw [hfc]
              split <;> omega
            · intro hge
              rw [hfc] at hge
              by_cases hid : id = a
              · subst hid
                exact ⟨hmem, not_mem_erase_self id st.registry hnd⟩
              · simp [hid] at hge
          · exact Bool.noConfusion hfalse
      | false =>
          rcases hsh with ⟨htrue, _⟩ | ⟨_, hx1⟩
          · exact Bool.noConfusion htrue
          · have hfc : fireCount a evs = 0 := by
              rw [hx1]
              rfl
            show StepOk a st (st, evs)
            exact ⟨fun c hc => hc, hnd, by simp [hfc], by simp [hfc]⟩

theorem removeHandle_stepOk (a id : Nat) (st : CoordState)
    (hnd : st.registry.Nodup) : StepOk a st (removeHandle st id) := by
  unfold removeHandle
  by_cases hc : st.registry.contains id = true
  · have hmem : id ∈ st.registry := by simpa using hc
    rw [if_pos hc]
    have hfc : fireCount a
        ((if st.multiHandle then [Ev.nativeRemove id] else []) ++
          [Ev.removeRecord id, Ev.rejectErr id cancelMsg])
        = if id = a then 1 else 0 := by
      rw [fireCount_append, fireCount_cons, fireCount_cons, fireCount_nil]
      have h0 : fireCount a
          (if st.multiHandle then [Ev.nativeRemove id] else []) = 0 := by
        by_cases hm : st.multiHandle = true <;> simp [hm] <;> rfl
      have h1 : isFire a (Ev.removeRecord id) = false := rfl
      have h2 : isFire a (Ev.rejectErr id cancelMsg) = (id == a) := rfl
      rw [h0, h1, h2]
      by_cases h : id = a <;> simp [h]
    refine ⟨?_, ?_, ?_, ?_⟩
    · intro b hb
      exact List.mem_of_mem_erase hb
    · exact hnd.erase id
    · rw [hfc]
      split <;> omega
    · intro hge
      rw [hfc] at hge
      by_cases hid : id = a
      · subst hid
        exact ⟨hmem, not_mem_erase_self id st.registry hnd⟩
      · simp [hid] at hge
  · rw [if_neg hc]
    exact ⟨fun b hb => hb, hnd, by simp [fireCount_nil], by simp [fireCount_nil]⟩

theorem fireCount_closeRejects (a : Nat) (reg : List Nat) :
    fireCount a (reg.flatMap
      (fun id => [Ev.nativeRemove id, Ev.rejectErr id closedMsg]))
      = reg.count a := by
  induction reg with
  | nil => rfl
  | cons x rest ih =>
      rw [List.flatMap_cons, fireCount_append, ih]
      have hblock : fireCount a [Ev.nativeRemove x, Ev.rejectErr x closedMsg]
          = if x = a then 1 else 0 := by
        rw [fireCount_cons, fireCount_cons, fireCount_nil]
        have h1 : isFire a (Ev.nativeRemove x) = false := rfl
        have h2 : isFire a (Ev.rejectErr x closedMsg) = (x == a) := rfl
        rw [h1, h2]
        by_cases h : x = a <;> simp [h]
      rw [hblock, List.count_cons]
      by_cases h : x = a <;> simp [h, Nat.add_comm]

theorem fireCount_clears (a : Nat) (reg : List Nat) :
    fireCount a (reg.map Ev.removeRecord) = 0 := by
  induction reg with
  | nil => rfl
  | cons x rest ih =>
      rw [List.map_cons, fireCount_cons]
      have h1 : isFire a (Ev.removeRecord x) = false := rfl
      rw [h1, ih]
      rfl

theorem close_stepOk (a : Nat) (st : CoordState)
    (hnd : st.registry.Nodup) : StepOk a st (close st) := by
  unfold close
  by_cases hm : st.multiHandle = true
  · have hmn : (!st.multiHandle) = false := by simp [hm]
    rw [hmn]
    simp only [Bool.false_eq_true, if_false]
    have hfc : fireCount a
        ((if st.timerSet then [Ev.cancelTimer] else []) ++
          (match st.socketCallbackId with
           | some i => [Ev.releaseCb i]
           | none => []) ++
          (match st.timerCallbackId with
           | some i => [Ev.releaseCb i]
           | none => []) ++
          st.registry.flatMap
            (fun id => [Ev.nativeRemove id, Ev.rejectErr id closedMsg]) ++
          st.registry.map Ev.removeRecord ++ [Ev.scheduleCleanup])
        = st.registry.count a := by
      rw [fireCount_append, fireCount_append, fireCount_append,
        fireCount_append, fireCount_append]
      have e1 : fireCount a (if st.timerSet then [Ev.cancelTimer] else [])
          = 0 := by
        by_cases h : st.timerSet = true <;> simp [h] <;> rfl
      have e2 : fireCount a
          (match st.socketCallbackId with
           | some i => [Ev.releaseCb i]
           | none => []) = 0 := by
        cases st.socketCallbackId <;> rfl
      have e3 : fireCount a
          (match st.timerCallbackId with
           | some i => [Ev.releaseCb i]
           | none => []) = 0 := by
        cases st.timerCallbackId <;> rfl
      have e4 := fireCount_closeRejects a st.registry
      have e5 := fireCount_clears a st.registry
      have e6 : fireCount a [Ev.scheduleCleanup] = 0 := rfl
      omega
    refine ⟨?_, ?_, ?_, ?_⟩
    · intro b hb
      simp at hb
    · simp
    · rw [hfc]
      exact List.nodup_iff_count_le_one.mp hnd a
    · intro hge
      rw [hfc] at hge
      refine ⟨List.count_pos_iff.mp (by omega), by simp⟩
  · have hmn : (!st.multiHandle) = true := by simp [hm]
    rw [hmn]
    simp only [if_true]
    exact ⟨fun b hb => hb, hnd, by simp [fireCount_nil], by simp [fireCount_nil]⟩

theorem runCleanupTask_stepOk (a : Nat) (st : CoordState)
    (hnd : st.registry.Nodup) : StepOk a st (runCleanupTask st) := by
  unfold runCleanupTask
  by_cases h : st.tasks = 0
  · rw [if_pos h]
    exact ⟨fun b hb => hb, hnd, by simp [fireCount_nil], by simp [fireCount_nil]⟩
  · rw [if_neg h]
    have hfc : fireCount a [Ev.multiCleanup] = 0 := rfl
    exact ⟨fun b hb => hb, hnd, by simp [hfc], by simp [hfc]⟩

theorem coordStep_stepOk (a : Nat) (st : CoordState) (op : CoordOp)
    (hnd : st.registry.Nodup) : StepOk a st (coordStep st op) := by
  cases op with
  | drainMsg probe m =>
      show StepOk a st
        (if (!st.multiHandle) = true then (st, [])
         else handleMessageSafely probe m st)
      by_cases hm : (!st.multiHandle) = true
      · rw [if_pos hm]
        exact ⟨fun b hb => hb, hnd, by simp [fireCount_nil], by simp [fireCount_nil]⟩
      · rw [if_neg hm]
        exact handleMessageSafely_stepOk a probe m st hnd
  | fallback probe =>
      show StepOk a st
        (if (!st.multiHandle) = true then (st, [])
         else fallbackCompletionCheck probe st)
      by_cases hm : (!st.multiHandle) = true
      · rw [if_pos hm]
        exact ⟨fun b hb => hb, hnd, by simp [fireCount_nil], by simp [fireCount_nil]⟩
      · rw [if_neg hm]
        exact fallbackCompletionCheck_stepOk a probe st hnd
  | removeH id => exact removeHandle_stepOk a id st hnd
  | closeOp => exact close_stepOk a st hnd
  | cleanupTask => exact runCleanupTask_stepOk a st hnd

end Coord

namespace Coord

/-- Potential: 1 while `a` is still pending, 0 afterwards. -/
def phi (a : Nat) (st : CoordState) : Nat := if a ∈ st.registry then 1 else 0

theorem stepOk_potential (a : Nat) (st : CoordState) (r : CoordState × List Ev)
    (h : StepOk a st r) : fireCount a r.2 + phi a r.1 ≤ phi a st := by
  obtain ⟨hsub, _, hle, hfire⟩ := h
  by_cases h0 : 1 ≤ fireCount a r.2
  · obtain ⟨hmem, hnot⟩ := hfire h0
    have e1 : phi a r.1 = 0 := by simp [phi, hnot]
    have e2 : phi a st = 1 := by simp [phi, hmem]
    omega
  · have h2 : fireCount a r.2 = 0 := by omega
    rw [h2]
    by_cases hm : a ∈ r.1.registry
    · have hmem : a ∈ st.registry := hsub a hm
      simp [phi, hm, hmem]
    · have e1 : phi a r.1 = 0 := by simp [phi, hm]
      omega

theorem runOps_analysis (a : Nat) (st : CoordState) (ops : List CoordOp)
    (hnd : st.registry.Nodup) :
    fireCount a (runOps st ops).2 + phi a (runOps st ops).1 ≤ phi a st ∧
    (runOps st ops).1.registry.Nodup := by
  induction ops generalizing st with
  | nil => exact ⟨by simp [runOps, fireCount_nil], hnd⟩
  | cons op rest ih =>
      have hstep := coordStep_stepOk a st op hnd
      obtain ⟨ih1, ih2⟩ := ih (coordStep st op).1 hstep.2.1
      have hpot := stepOk_potential a st _ hstep
      have hrw : runOps st (op :: rest)
          = ((runOps (coordStep st op).1 rest).1,
             (coordStep st op).2 ++ (runOps (coordStep st op).1 rest).2) := rfl
      refine ⟨?_, by rw [hrw]; exact ih2⟩
      rw [hrw]
      simp only []
      rw [fireCount_append]
      omega

/-- "The registry removal precedes the continuation": if any continuation
for `a` fires in the block, then a `removeRecord a` event occurs in it
with no continuation for `a` anywhere before it. -/
def removalPrecedesFire (a : Nat) (evs : List Ev) : Prop :=
  (∃ e ∈ evs, isFire a e = true) →
    ∃ l1 l2, evs = l1 ++ Ev.removeRecord a :: l2 ∧
      ∀ e ∈ l1, isFire a e = false

theorem removalPrecedesFire_nil (a : Nat) : removalPrecedesFire a [] := by
  intro h
  obtain ⟨e, hmem, _⟩ := h
  simp at hmem

theorem removalPrecedesFire_block (a id : Nat) (x : Ev)
    (hx : ∀ b, isFire b x = (id == b)) :
    removalPrecedesFire a [Ev.nativeRemove id, Ev.removeRecord id, x] := by
  intro h
  obtain ⟨e, hmem, hfire⟩ := h
  have hid : id = a := by
    simp only [List.mem_cons, List.not_mem_nil, or_false] at hmem
    rcases hmem with rfl | rfl | rfl
    · exact absurd hfire (by simp [isFire])
    · exact absurd hfire (by simp [isFire])
    · rw [hx a] at hfire
      exact eq_of_beq hfire
  subst hid
  exact ⟨[Ev.nativeRemove id], [x], rfl, by simp [isFire]⟩

theorem removalPrecedesFire_drain (a : Nat) (probe : Nat → HandleProbe)
    (m : CurlMsg) (st : CoordState) :
    removalPrecedesFire a (handleMessageSafely probe m st).2 := by
  unfold handleMessageSafely
  cases hscan : msgSafeScan probe st.registry with
  | none => exact removalPrecedesFire_nil a
  | some pr =>
      obtain ⟨id, evs⟩ := pr
      obtain ⟨_, hevs⟩ := msgSafeScan_spec probe st.registry id evs hscan
      obtain ⟨x, hx1, hx2⟩ := msgSafeEvents_shape (probe id) id
      show removalPrecedesFire a evs
      rw [hevs, hx1]
      exact removalPrecedesFire_block a id x hx2

theorem removalPrecedesFire_fallback (a : Nat) (probe : Nat → HandleProbe)
    (st : CoordState) :
    removalPrecedesFire a (fallbackCompletionCheck probe st).2 := by
  unfold fallbackCompletionCheck
  cases hscan : fallbackScan probe st.registry with
  | none => exact removalPrecedesFire_nil a
  | some pr =>
      obtain ⟨id, b, evs⟩ := pr
      obtain ⟨_, hsh⟩ := fallbackScan_spec probe st.registry id b evs hscan
      cases b with
      | true =>
          rcases hsh with ⟨_, x, hx1, hx2⟩ | ⟨hfalse, _⟩
          · show removalPrecedesFire a evs
            rw [hx1]
            exact removalPrecedesFire_block a id x hx2
          · exact Bool.noConfusion hfalse
      | false =>
          rcases hsh with ⟨htrue, _⟩ | ⟨_, hx1⟩
          · exact Bool.noConfusion htrue
          · show removalPrecedesFire a evs
            rw [hx1]
            intro h
            obtain ⟨e, hmem, hfire⟩ := h
            simp only [List.mem_singleton] at hmem
            subst hmem
            exact absurd hfire (by simp [isFire])

theorem removalPrecedesFire_remove (a : Nat) (st : CoordState) (id : Nat) :
    removalPrecedesFire a (removeHandle st id).2 := by
  unfold removeHandle
  by_cases hc : st.registry.contains id = true
  · rw [if_pos hc]
    by_cases hm : st.multiHandle = true
    · rw [if_pos hm]
      intro h
      obtain ⟨e, hmem, hfire⟩ := h
      have hid : id = a := by
        simp only [List.cons_append, List.nil_append, List.mem_cons,
          List.not_mem_nil, or_false] at hmem
        rcases hmem with rfl | rfl | rfl
        · exact absurd hfire (by simp [isFire])
        · exact absurd hfire (by simp [isFire])
        · have he : isFire a (Ev.rejectErr id cancelMsg) = (id == a) := rfl
          rw [he] at hfire
          exact eq_of_beq hfire
      subst hid
      exact ⟨[Ev.nativeRemove id], [Ev.rejectErr id cancelMsg], rfl,
        by simp [isFire]⟩
    · rw [if_neg hm]
      intro h
      obtain ⟨e, hmem, hfire⟩ := h
      have hid : id = a := by
        simp only [List.nil_append, List.mem_cons, List.not_mem_nil,
          or_false] at hmem
        rcases hmem with rfl | rfl
        · exact absurd hfire (by simp [isFire])
        · have he : isFire a (Ev.rejectErr id cancelMsg) = (id == a) := rfl
          rw [he] at hfire
          exact eq_of_beq hfire
      subst hid
      exact ⟨[], [Ev.rejectErr id cancelMsg], rfl, by simp⟩
  · rw [if_neg hc]
    exact removalPrecedesFire_nil a

end Coord

/-- Claim C1: for a handle identity `a`, across any interleaving of
drive-step drain invocations, fallback scans, `removeHandle`, `close`
and deferred cleanup tasks on the same coordinator (starting from any
duplicate-free registry), at most one success/failure continuation for
`a` fires in total; whenever one has fired, `a` is no longer in the
registry and a racing `removeHandle` for `a` observes "not found" and is
a no-op; and within every drain, fallback and `removeHandle` block the
registry removal of `a` strictly precedes any continuation invocation
for `a`. -/
theorem at_most_once_resolution (st : Coord.CoordState)
    (ops : List Coord.CoordOp) (a : Nat) (hnd : st.registry.Nodup) :
    Coord.fireCount a (Coord.runOps st ops).2 ≤ 1 ∧
    (1 ≤ Coord.fireCount a (Coord.runOps st ops).2 →
      a ∉ (Coord.runOps st ops).1.registry ∧
      Coord.removeHandle (Coord.runOps st ops).1 a
        = ((Coord.runOps st ops).1, [])) ∧
    (∀ (probe : Nat → Coord.HandleProbe) (m : Coord.CurlMsg)
       (st2 : Coord.CoordState),
      Coord.removalPrecedesFire a (Coord.handleMessageSafely probe m st2).2) ∧
    (∀ (probe : Nat → Coord.HandleProbe) (st2 : Coord.CoordState),
      Coord.removalPrecedesFire a (Coord.fallbackCompletionCheck probe st2).2) ∧
    (∀ (st2 : Coord.CoordState) (id : Nat),
      Coord.removalPrecedesFire a (Coord.removeHandle st2 id).2) := by
  obtain ⟨hbound, _⟩ := Coord.runOps_analysis a st ops hnd
  have hphile : Coord.phi a st ≤ 1 := by
    unfold Coord.phi
    split <;> omega
  refine ⟨by omega, ?_, Coord.removalPrecedesFire_drain a,
    Coord.removalPrecedesFire_fallback a,
    Coord.removalPrecedesFire_remove a⟩
  intro hge
  have hnot : a ∉ (Coord.runOps st ops).1.registry := by
    intro hmem
    have : Coord.phi a (Coord.runOps st ops).1 = 1 := by
      simp [Coord.phi, hmem]
    omega
  refine ⟨hnot, ?_⟩
  unfold Coord.removeHandle
  have hc : (Coord.runOps st ops).1.registry.contains a = false := by
    simpa using hnot
  rw [hc]
  simp

theorem at_most_once_resolution_witness :
    Coord.fireCount 4
      (Coord.runOps ⟨true, [4], none, none, false, 1, 0⟩
        [.removeH 4, .closeOp]).2 ≤ 1 :=
  (at_most_once_resolution ⟨true, [4], none, none, false, 1, 0⟩
    [.removeH 4, .closeOp] 4 (by simp)).1
